import Mathlib

/-!
Verification of the Task Dispatch and SLA Enforcement core of the
Spark-Ai job-application management system.

The definitions below are a shallow embedding of the TypeScript sources:

* `strike`, `expireRow`, `handleTimeout`, `checkTimeouts` embed the
  timeout checker worker (`handleTimeout` / `checkTimeouts` in the
  api-gateway worker file).
* `eligible`, `selectQueuedTask`, `selectEmployee`, `assignNextTask`
  embed `assignNextTask` of `taskAssigner.ts`.
* `queueTask` embeds `queueTask` of `taskAssigner.ts`; `enqueueTask`
  adds the score gate of the ats-service, which is modelled from the
  spec because the ats-service source is not part of the sources.
* `updatePresence` embeds `updatePresence` of the websocket server.
* `completeTask`, `startTask`, `failTask` embed the corresponding
  routes of `tasks.routes.ts`; each SQL statement of the complete
  route is a separate step, with an explicit failure point, because
  the route does not open a transaction.
* `resetWarnings`, `resetViolations` embed the admin endpoints of the
  employees router.

Timestamps are integers (seconds); ATS scores are rationals on the
0..1 scale of the spec.
-/

namespace Spark

inductive TaskStatus where
  | pending
  | queued
  | assigned
  | inProgress
  | completed
  | failed
  | timeout
deriving DecidableEq, Repr

inductive EmpStatus where
  | available
  | busy
  | offline
deriving DecidableEq, Repr

inductive IncidentType where
  | warning
  | violation
deriving DecidableEq, Repr

/-- A row of `ats_tasks` (schema in `backend/init.sql`). -/
structure Task where
  id : Nat
  candidate_id : Nat
  job_id : Nat
  ats_score : ℚ
  status : TaskStatus
  assigned_to : Option Nat
  assigned_at : Option Int
  due_at : Option Int
  started_at : Option Int
  completed_at : Option Int
  old_resume_url : Option String
  new_resume_url : Option String
  notes : Option String
  retry_count : Nat
  created_at : Int
deriving DecidableEq, Repr

/-- A row of `employees`.  The schema has no `active` column: the only
account-state fields are `status`, the counters and `current_task_id`. -/
structure Employee where
  id : Nat
  status : EmpStatus
  current_task_id : Option Nat
  tasks_completed : Nat
  warnings : Nat
  violations : Nat
  average_completion_time_seconds : Int
  last_heartbeat : Option Int
deriving DecidableEq, Repr

/-- A row of `employee_incidents`. -/
structure Incident where
  employee_id : Nat
  type : IncidentType
  reason : String
  task_id : Option Nat
deriving DecidableEq, Repr

/-- A row of `applications`; `(candidate_id, job_id)` is unique. -/
structure Application where
  candidate_id : Nat
  job_id : Nat
  task_id : Option Nat
  resume_used_url : Option String
  ats_score_at_submission : ℚ
  status : String
  auto_submitted : Bool
  submitted_at : Option Int
deriving DecidableEq, Repr

/-- The part of a `candidates` row the core touches. -/
structure Candidate where
  id : Nat
  resume_url : Option String
deriving DecidableEq, Repr

/-- The relational store: tasks, employees, incidents, applications,
candidates, and the ids of existing jobs. -/
structure State where
  tasks : List Task
  employees : List Employee
  incidents : List Incident
  applications : List Application
  candidates : List Candidate
  jobs : List Nat
deriving DecidableEq, Repr

/-! Configuration constants, as in the worker sources. -/

def SLA_MINUTES : Nat := 20

def WARNINGS_PER_VIOLATION : Nat := 3

def MAX_VIOLATIONS : Nat := 4

def SCORE_THRESHOLD : ℚ := 9 / 10

/-! ### Strike machine (timeout checker worker, `handleTimeout`) -/

/-- Outcome of one strike: the new counters, the employee status
written back, and the incident type recorded. -/
structure StrikeResult where
  warnings : Nat
  violations : Nat
  empStatus : EmpStatus
  incidentType : IncidentType
deriving DecidableEq, Repr

/-- Lines 70-91 of the timeout checker: increment warnings; at
`WARNINGS_PER_VIOLATION` convert to a violation and reset warnings;
at `MAX_VIOLATIONS` violations lock the account (`status = offline`).
Otherwise the employee status is written back as `available`. -/
def strike (w v : Nat) : StrikeResult :=
  let newWarnings := w + 1
  if WARNINGS_PER_VIOLATION ≤ newWarnings then
    let newViolations := v + 1
    { warnings := 0
      violations := newViolations
      empStatus := if MAX_VIOLATIONS ≤ newViolations then EmpStatus.offline else EmpStatus.available
      incidentType := IncidentType.violation }
  else
    { warnings := newWarnings
      violations := v
      empStatus := EmpStatus.available
      incidentType := IncidentType.warning }

/-- The joined row the timeout sweep reads (`OverdueTask` interface):
the task id, its holder, and the holder's counters at read time. -/
structure OverdueRow where
  taskId : Nat
  assignedTo : Nat
  employee_warnings : Nat
  employee_violations : Nat
deriving DecidableEq, Repr

/-- The task UPDATE of `handleTimeout`: requeue in place, clear the
assignment fields, bump `retry_count`. -/
def expireRow (tid : Nat) (tk : Task) : Task :=
  if tk.id = tid then
    { tk with
        status := TaskStatus.queued
        assigned_to := none
        assigned_at := none
        due_at := none
        started_at := none
        retry_count := tk.retry_count + 1 }
  else tk

/-- The employee UPDATE of `handleTimeout`: write back the strike
result and clear `current_task_id`. -/
def strikeEmployee (eid : Nat) (r : StrikeResult) (e : Employee) : Employee :=
  if e.id = eid then
    { e with
        warnings := r.warnings
        violations := r.violations
        status := r.empStatus
        current_task_id := none }
  else e

def timeoutReason : String := "Task timeout - exceeded 20 minute SLA"

/-- One expiry transaction of the timeout checker (`handleTimeout`). -/
def handleTimeout (row : OverdueRow) (st : State) : State :=
  let r := strike row.employee_warnings row.employee_violations
  { st with
      tasks := st.tasks.map (expireRow row.taskId)
      employees := st.employees.map (strikeEmployee row.assignedTo r)
      incidents := st.incidents ++
        [{ employee_id := row.assignedTo
           type := r.incidentType
           reason := timeoutReason
           task_id := some row.taskId }] }

/-- The sweep query of `checkTimeouts`: tasks in `assigned` or
`in_progress` whose `due_at` has passed, joined with their holder. -/
def overdueRows (now : Int) (st : State) : List OverdueRow :=
  (st.tasks.filter fun tk =>
      (decide (tk.status = TaskStatus.assigned) || decide (tk.status = TaskStatus.inProgress)) &&
      (match tk.due_at with
       | some d => decide (d < now)
       | none => false)).filterMap fun tk =>
    match tk.assigned_to with
    | some eid =>
        (st.employees.find? fun e => decide (e.id = eid)).map fun e =>
          { taskId := tk.id
            assignedTo := eid
            employee_warnings := e.warnings
            employee_violations := e.violations }
    | none => none

/-- The timeout checker tick: read the overdue rows, then process each
in turn (the counters in each row are those read by the sweep query). -/
def checkTimeouts (now : Int) (st : State) : State :=
  (overdueRows now st).foldl (fun s row => handleTimeout row s) st

/-! ### Assigner (`assignNextTask` of `taskAssigner.ts`) -/

/-- The WHERE clause of the employee query: `status = 'available' AND
violations < 4 AND current_task_id IS NULL AND last_heartbeat > NOW()
- INTERVAL '5 minutes'` (a NULL heartbeat fails the comparison).
There is no `active` flag in the schema and none is checked. -/
def eligible (now : Int) (e : Employee) : Bool :=
  decide (e.status = EmpStatus.available) &&
  decide (e.violations < 4) &&
  decide (e.current_task_id = none) &&
  (match e.last_heartbeat with
   | some h => decide (now - 300 < h)
   | none => false)

/-- The `ORDER BY ... LIMIT 1` idiom: first element of the list under the strict
order `lt`, via a fold. -/
def pickBy (lt : α → α → Bool) : List α → Option α
  | [] => none
  | x :: xs => some (xs.foldl (fun a y => if lt y a then y else a) x)

/-- The task order `ORDER BY t.created_at ASC`. -/
def taskLt (a b : Task) : Bool :=
  decide (a.created_at < b.created_at)

/-- The heartbeat used for ordering; eligible employees always carry
one, so the default never matters after the filter. -/
def hbVal (e : Employee) : Int :=
  e.last_heartbeat.getD 0

/-- The employee order `ORDER BY tasks_completed ASC, last_heartbeat DESC`: fewest
completed tasks first, ties broken by the most recent heartbeat. -/
def empLt (a b : Employee) : Bool :=
  decide (a.tasks_completed < b.tasks_completed) ||
  (decide (a.tasks_completed = b.tasks_completed) && decide (hbVal b < hbVal a))

/-- The task query: oldest `queued` task. -/
def selectQueuedTask (st : State) : Option Task :=
  pickBy taskLt (st.tasks.filter fun tk => decide (tk.status = TaskStatus.queued))

/-- The employee query: best eligible employee. -/
def selectEmployee (now : Int) (st : State) : Option Employee :=
  pickBy empLt (st.employees.filter (eligible now))

/-- One assigner tick: pick the oldest queued task, pick the best
eligible employee, bind them (`deadline = now + 20 minutes`), mark the
employee busy.  If either query is empty nothing changes. -/
def assignNextTask (now : Int) (st : State) : State :=
  match selectQueuedTask st with
  | none => st
  | some task =>
    match selectEmployee now st with
    | none => st
    | some emp =>
      { st with
          tasks := st.tasks.map fun tk =>
            if tk.id = task.id then
              { tk with
                  status := TaskStatus.assigned
                  assigned_to := some emp.id
                  assigned_at := some now
                  due_at := some (now + (SLA_MINUTES : Int) * 60) }
            else tk
          employees := st.employees.map fun e =>
            if e.id = emp.id then
              { e with status := EmpStatus.busy, current_task_id := some task.id }
            else e }

/-! ### Intake (`queueTask` of `taskAssigner.ts`, gate from the spec) -/

/-- The `queueTask` function: read the candidate's current resume, insert one
`queued` task with it as `old_resume_url`. -/
def queueTask (candidateId jobId : Nat) (atsScore : ℚ) (newId : Nat) (now : Int)
    (st : State) : State :=
  let resumeUrl := (st.candidates.find? fun c => decide (c.id = candidateId)).bind
    fun c => c.resume_url
  { st with
      tasks := st.tasks ++
        [{ id := newId
           candidate_id := candidateId
           job_id := jobId
           ats_score := atsScore
           status := TaskStatus.queued
           assigned_to := none
           assigned_at := none
           due_at := none
           started_at := none
           completed_at := none
           old_resume_url := resumeUrl
           new_resume_url := none
           notes := none
           retry_count := 0
           created_at := now }] }

inductive EnqueueError where
  | ScoreAboveThreshold
deriving DecidableEq, Repr

/-- Modelled from the spec: the threshold gate of the enqueue path
(`Rejects ats_score >= 0.90 with ScoreAboveThreshold`) lives in the
ats-service, whose source is not among the repository sources (only
its README documents the 90% enforcement).  A score below the
threshold is inserted through `queueTask` as in the source. -/
def enqueueTask (candidateId jobId : Nat) (atsScore : ℚ) (newId : Nat) (now : Int)
    (st : State) : Except EnqueueError State :=
  if SCORE_THRESHOLD ≤ atsScore then
    Except.error EnqueueError.ScoreAboveThreshold
  else
    Except.ok (queueTask candidateId jobId atsScore newId now st)

/-! ### Presence (`updatePresence` of the websocket server) -/

/-- The `updatePresence` function: one unconditional UPDATE setting `status` and
refreshing `last_heartbeat`; no precondition is checked. -/
def updatePresence (now : Int) (uid : Nat) (s : EmpStatus) (st : State) : State :=
  { st with
      employees := st.employees.map fun e =>
        if e.id = uid then { e with status := s, last_heartbeat := some now } else e }

/-! ### Reviewer routes (`tasks.routes.ts`) -/

/-- POST `/api/tasks/:id/start`: requires the task to be `assigned` to
the caller, then sets `in_progress` and `started_at`. -/
def startTask (now : Int) (uid tid : Nat) (st : State) : State × Bool :=
  if st.tasks.any (fun tk =>
      decide (tk.id = tid) && decide (tk.assigned_to = some uid) &&
      decide (tk.status = TaskStatus.assigned)) then
    ({ st with
        tasks := st.tasks.map fun tk =>
          if tk.id = tid then
            { tk with status := TaskStatus.inProgress, started_at := some now }
          else tk }, true)
  else (st, false)

/-- POST `/api/tasks/:id/fail`: requires ownership and `assigned` or
`in_progress`; requeues the row, appends the reason to the notes, and
frees the employee. -/
def failTask (uid tid : Nat) (reason : String) (st : State) : State × Bool :=
  if st.tasks.any (fun tk =>
      decide (tk.id = tid) && decide (tk.assigned_to = some uid) &&
      (decide (tk.status = TaskStatus.assigned) || decide (tk.status = TaskStatus.inProgress))) then
    ({ st with
        tasks := st.tasks.map fun tk =>
          if tk.id = tid then
            { tk with
                status := TaskStatus.queued
                assigned_to := none
                assigned_at := none
                due_at := none
                started_at := none
                notes := some ((tk.notes.getD "") ++ "\n[FAILED] " ++ reason)
                retry_count := tk.retry_count + 1 }
          else tk
        employees := st.employees.map fun e =>
          if e.id = uid then
            { e with status := EmpStatus.available, current_task_id := none }
          else e }, true)
  else (st, false)

/-- The ownership check of the complete route: the task with this id,
assigned to the caller, in `assigned` or `in_progress`. -/
def findCompletable (uid tid : Nat) (st : State) : Option Task :=
  st.tasks.find? fun tk =>
    decide (tk.id = tid) && decide (tk.assigned_to = some uid) &&
    (decide (tk.status = TaskStatus.assigned) || decide (tk.status = TaskStatus.inProgress))

/-- The application upsert of the complete route (`ON CONFLICT
(candidate_id, job_id) DO UPDATE`): the conflict update rewrites only
`resume_used_url`, `status` and `submitted_at`. -/
def upsertApp (task : Task) (tid : Nat) (url : String) (now : Int)
    (apps : List Application) : List Application :=
  if apps.any (fun a =>
      decide (a.candidate_id = task.candidate_id) && decide (a.job_id = task.job_id)) then
    apps.map fun a =>
      if a.candidate_id = task.candidate_id ∧ a.job_id = task.job_id then
        { a with resume_used_url := some url, status := "submitted", submitted_at := some now }
      else a
  else
    apps ++
      [{ candidate_id := task.candidate_id
         job_id := task.job_id
         task_id := some tid
         resume_used_url := some url
         ats_score_at_submission := task.ats_score
         status := "submitted"
         auto_submitted := false
         submitted_at := some now }]

/-- Run a list of already-committed statements in order.  `failAt =
some k` means the k-th statement (0-based) throws: the statements
before it stay committed (the route opens no transaction, so there is
nothing to roll back) and the flag is `false`. -/
def applySteps : List (State → State) → Option Nat → State → State × Bool
  | [], _, s => (s, true)
  | _ :: _, some 0, s => (s, false)
  | f :: fs, some (k + 1), s => applySteps fs (some k) (f s)
  | f :: fs, none, s => applySteps fs none (f s)

/-- The completion time the route computes: wall clock minus
`assigned_at` (falling back to `created_at`). -/
def completionSeconds (now : Int) (task : Task) : Int :=
  now - (task.assigned_at.getD task.created_at)

/-- First statement of the complete route: the task UPDATE. -/
def completeStepTask (now : Int) (tid : Nat) (url : String) (notes : Option String)
    (s : State) : State :=
  { s with
      tasks := s.tasks.map fun tk =>
        if tk.id = tid then
          { tk with
              status := TaskStatus.completed
              completed_at := some now
              new_resume_url := some url
              notes := notes }
        else tk }

/-- Second statement: the candidate resume UPDATE. -/
def completeStepCandidate (task : Task) (url : String) (s : State) : State :=
  { s with
      candidates := s.candidates.map fun c =>
        if c.id = task.candidate_id then { c with resume_url := some url } else c }

/-- Third statement: the employee stats UPDATE (free the employee,
bump `tasks_completed`, fold the completion time into the integer
running average). -/
def completeStepEmployee (now : Int) (uid : Nat) (task : Task) (s : State) : State :=
  { s with
      employees := s.employees.map fun e =>
        if e.id = uid then
          { e with
              status := EmpStatus.available
              current_task_id := none
              tasks_completed := e.tasks_completed + 1
              average_completion_time_seconds :=
                if e.tasks_completed = 0 then completionSeconds now task
                else (e.average_completion_time_seconds * (e.tasks_completed : Int) +
                    completionSeconds now task) / ((e.tasks_completed : Int) + 1) }
        else e }

/-- Fourth statement: the application upsert, guarded by the job
existence check. -/
def completeStepApplication (task : Task) (tid : Nat) (url : String) (now : Int)
    (s : State) : State :=
  if s.jobs.contains task.job_id then
    { s with applications := upsertApp task tid url now s.applications }
  else s

/-- POST `/api/tasks/:id/complete`: after the ownership check, four
separate SQL statements run one after the other — task update,
candidate resume update, employee stats update, application upsert.
`failAt` injects a failure between statements. -/
def completeTask (now : Int) (uid tid : Nat) (url : String) (notes : Option String)
    (failAt : Option Nat) (st : State) : State × Bool :=
  match findCompletable uid tid st with
  | none => (st, false)
  | some task =>
    applySteps
      [completeStepTask now tid url notes,
       completeStepCandidate task url,
       completeStepEmployee now uid task,
       completeStepApplication task tid url now] failAt st

/-! ### Admin resets (employees router) -/

/-- POST `/api/employees/:id/reset-warnings`: if the employee exists,
one UPDATE setting `warnings = 0`; nothing else changes. -/
def resetWarnings (id : Nat) (st : State) : State × Bool :=
  if st.employees.any (fun e => decide (e.id = id)) then
    ({ st with
        employees := st.employees.map fun e =>
          if e.id = id then { e with warnings := 0 } else e }, true)
  else (st, false)

/-- POST `/api/employees/:id/reset-violations`: if the employee
exists, one UPDATE setting `violations = 0, status = 'available'`,
unconditionally; nothing else changes. -/
def resetViolations (id : Nat) (st : State) : State × Bool :=
  if st.employees.any (fun e => decide (e.id = id)) then
    ({ st with
        employees := st.employees.map fun e =>
          if e.id = id then { e with violations := 0, status := EmpStatus.available } else e }, true)
  else (st, false)

/-! ### Step relation: the operations of the gateway core -/

/-- One operation of the modelled core, as a transition relation. -/
inductive Step : State → State → Prop where
  | enqueue (candidateId jobId newId : Nat) (atsScore : ℚ) (now : Int) (st st' : State) :
      enqueueTask candidateId jobId atsScore newId now st = Except.ok st' → Step st st'
  | assign (now : Int) (st : State) : Step st (assignNextTask now st)
  | sweep (now : Int) (st : State) : Step st (checkTimeouts now st)
  | start (now : Int) (uid tid : Nat) (st : State) : Step st (startTask now uid tid st).1
  | complete (now : Int) (uid tid : Nat) (url : String) (notes : Option String)
      (failAt : Option Nat) (st : State) :
      Step st (completeTask now uid tid url notes failAt st).1
  | fail (uid tid : Nat) (reason : String) (st : State) : Step st (failTask uid tid reason st).1
  | presence (now : Int) (uid : Nat) (s : EmpStatus) (st : State) :
      Step st (updatePresence now uid s st)
  | resetW (id : Nat) (st : State) : Step st (resetWarnings id st).1
  | resetV (id : Nat) (st : State) : Step st (resetViolations id st).1

/-- Reachability under the modelled operations. -/
def Reachable : State → State → Prop :=
  Relation.ReflTransGen Step

/-- Every task in the store scores strictly below the threshold. -/
def scoresBelow (st : State) : Prop :=
  ∀ tk ∈ st.tasks, tk.ats_score < SCORE_THRESHOLD

/-! ### Generic lemmas about `pickBy` -/

lemma pick_foldl_mem (lt : α → α → Bool) (x : α) (xs : List α) :
    xs.foldl (fun a y => if lt y a then y else a) x ∈ x :: xs := by
  induction xs generalizing x with
  | nil => simp
  | cons y ys ih =>
    simp only [List.foldl_cons]
    rcases List.mem_cons.mp (ih (if lt y x then y else x)) with h1 | h1
    · rw [h1]
      by_cases hy : lt y x
      · simp [hy]
      · simp [hy]
    · exact List.mem_cons_of_mem _ (List.mem_cons_of_mem _ h1)

lemma pick_foldl_min (lt : α → α → Bool)
    (hirr : ∀ a, lt a a = false)
    (htr : ∀ a b c, lt a b = true → lt b c = true → lt a c = true)
    (hneg : ∀ a b c, lt b a = false → lt b c = true → lt a c = true)
    (x : α) (xs : List α) :
    ∀ z ∈ x :: xs, lt z (xs.foldl (fun a y => if lt y a then y else a) x) = false := by
  induction xs generalizing x with
  | nil =>
    intro z hz
    simp only [List.mem_singleton] at hz
    subst hz
    simpa using hirr z
  | cons y ys ih =>
    intro z hz
    simp only [List.foldl_cons]
    by_cases hy : lt y x
    · rw [if_pos hy]
      rcases List.mem_cons.mp hz with rfl | hz'
      · by_contra hzx
        have hzx' : lt z (ys.foldl (fun a y => if lt y a then y else a) y) = true := by
          revert hzx
          cases lt z (ys.foldl (fun a y => if lt y a then y else a) y) <;> simp
        have hyr := htr y z _ hy hzx'
        have := ih y y (List.mem_cons_self y ys)
        rw [this] at hyr
        exact Bool.false_ne_true hyr
      · exact ih y z hz'
    · rw [if_neg hy]
      have hyx : lt y x = false := by
        revert hy
        cases lt y x <;> simp
      rcases List.mem_cons.mp hz with hzx | hz'
      · rw [hzx]
        exact ih x x (List.mem_cons_self x ys)
      · rcases List.mem_cons.mp hz' with hzy | hz''
        · rw [hzy]
          by_contra hzr
          have hzr' : lt y (ys.foldl (fun a y => if lt y a then y else a) x) = true := by
            revert hzr
            cases lt y (ys.foldl (fun a y => if lt y a then y else a) x) <;> simp
          have hxr := hneg x y _ hyx hzr'
          have := ih x x (List.mem_cons_self x ys)
          rw [this] at hxr
          exact Bool.false_ne_true hxr
        · exact ih x z (List.mem_cons_of_mem _ hz'')

lemma pickBy_mem (lt : α → α → Bool) (l : List α) (x : α)
    (h : pickBy lt l = some x) : x ∈ l := by
  cases l with
  | nil => simp [pickBy] at h
  | cons a as =>
    simp only [pickBy, Option.some.injEq] at h
    subst h
    exact pick_foldl_mem lt a as

lemma pickBy_min (lt : α → α → Bool)
    (hirr : ∀ a, lt a a = false)
    (htr : ∀ a b c, lt a b = true → lt b c = true → lt a c = true)
    (hneg : ∀ a b c, lt b a = false → lt b c = true → lt a c = true)
    (l : List α) (x : α) (h : pickBy lt l = some x) :
    ∀ z ∈ l, lt z x = false := by
  cases l with
  | nil => simp [pickBy] at h
  | cons a as =>
    simp only [pickBy, Option.some.injEq] at h
    subst h
    exact pick_foldl_min lt hirr htr hneg a as

lemma taskLt_irr (a : Task) : taskLt a a = false := by
  simp [taskLt]

lemma taskLt_trans (a b c : Task) (h1 : taskLt a b = true) (h2 : taskLt b c = true) :
    taskLt a c = true := by
  simp only [taskLt, decide_eq_true_eq] at h1 h2 ⊢
  omega

lemma taskLt_neg (a b c : Task) (h1 : taskLt b a = false) (h2 : taskLt b c = true) :
    taskLt a c = true := by
  simp only [taskLt, decide_eq_false_iff_not, decide_eq_true_eq, not_lt] at h1 h2 ⊢
  omega

lemma empLt_irr (a : Employee) : empLt a a = false := by
  simp [empLt]

lemma empLt_trans (a b c : Employee) (h1 : empLt a b = true) (h2 : empLt b c = true) :
    empLt a c = true := by
  simp only [empLt, Bool.or_eq_true, Bool.and_eq_true, decide_eq_true_eq] at h1 h2 ⊢
  omega

lemma empLt_neg (a b c : Employee) (h1 : empLt b a = false) (h2 : empLt b c = true) :
    empLt a c = true := by
  simp only [empLt, Bool.or_eq_false_iff, Bool.or_eq_true, Bool.and_eq_false_iff,
    Bool.and_eq_true, decide_eq_false_iff_not, decide_eq_true_eq, not_lt] at h1 h2 ⊢
  omega

/-! ### Concrete rows and states used by witnesses and counterexamples -/

/-- A task row with the given id and status, all other columns at
their defaults. -/
def mkTask (id : Nat) (status : TaskStatus) : Task :=
  { id := id
    candidate_id := 0
    job_id := 0
    ats_score := 0
    status := status
    assigned_to := none
    assigned_at := none
    due_at := none
    started_at := none
    completed_at := none
    old_resume_url := none
    new_resume_url := none
    notes := none
    retry_count := 0
    created_at := 0 }

/-- An available employee row with the given id, all counters zero. -/
def mkEmployee (id : Nat) : Employee :=
  { id := id
    status := EmpStatus.available
    current_task_id := none
    tasks_completed := 0
    warnings := 0
    violations := 0
    average_completion_time_seconds := 0
    last_heartbeat := some 0 }

/-- The empty store. -/
def emptyState : State :=
  { tasks := []
    employees := []
    incidents := []
    applications := []
    candidates := []
    jobs := [] }

/-! ### Claim C1 -/

/-- The state for the C1 counterexample: one employee with two
warnings and two violations holding an overdue assigned task. -/
def stC1 : State :=
  { emptyState with
      tasks := [{ mkTask 1 TaskStatus.assigned with
                    assigned_to := some 1
                    assigned_at := some 0
                    due_at := some 10 }]
      employees := [{ mkEmployee 1 with
                        status := EmpStatus.busy
                        current_task_id := some 1
                        warnings := 2
                        violations := 2 }] }

/-- C1, counterexample: a deadline-expiry step that promotes a warning
into a violation and leaves the counter at exactly 3 does NOT suspend
the reviewer — the timeout checker writes `status = available` (and
the schema has no `active` flag to clear).  The reviewer with
`warnings = 2, violations = 2` whose task expires ends at
`violations = 3` with `status = available`, not `offline`. -/
theorem c1_counterexample :
    (checkTimeouts 100 stC1).employees =
      [{ id := 1
         status := EmpStatus.available
         current_task_id := none
         tasks_completed := 0
         warnings := 0
         violations := 3
         average_completion_time_seconds := 0
         last_heartbeat := some 0 }]
    ∧ EmpStatus.available ≠ EmpStatus.offline := by
  exact ⟨by decide, by decide⟩

/-- C1, amended: the timeout checker suspends at the FOURTH violation,
not the third, and it does so by writing `status = offline` (the
schema has no `active` column).  After a strike the employee status is
`offline` exactly when the strike recorded a violation and the
post-update count reaches `MAX_VIOLATIONS = 4`; when the post-update
count is 3 the status written back is `available`. -/
theorem c1_suspension_at_four (w v : Nat) :
    ((strike w v).empStatus = EmpStatus.offline ↔
      (strike w v).incidentType = IncidentType.violation ∧ 4 ≤ (strike w v).violations)
    ∧ ((strike w v).violations = 3 → (strike w v).empStatus = EmpStatus.available) := by
  simp only [strike, WARNINGS_PER_VIOLATION, MAX_VIOLATIONS]
  by_cases h3 : 3 ≤ w + 1
  · by_cases h4 : 4 ≤ v + 1
    · refine ⟨by simp [h3, h4], fun hv => absurd hv (by simp [h3, h4]; omega)⟩
    · refine ⟨by simp [h3, h4], fun hv => by simp [h3, h4]⟩
  · refine ⟨by simp [h3], fun hv => by simp [h3]⟩

/-- C1 witness: at `warnings = 2, violations = 3` the strike suspends
(count reaches 4); at `warnings = 2, violations = 2` it does not
(count reaches 3, status available). -/
theorem c1_suspension_at_four_witness :
    (strike 2 3).empStatus = EmpStatus.offline ∧ (strike 2 2).empStatus = EmpStatus.available :=
  ⟨(c1_suspension_at_four 2 3).1.mpr (by decide), (c1_suspension_at_four 2 2).2 (by decide)⟩

/-! ### Claim C2 -/

/-- C2: the strike machine at deadline expiry.  With `w < 2` warnings
become `w + 1`, violations stay, and the incident recorded by
`handleTimeout` is a `warning`; with `w = 2` warnings reset to 0,
violations become `v + 1`, and the incident is a `violation`.
Starting from `w ≤ 2` the warnings counter stays in `[0, 2]`, and the
expiry appends exactly one incident of the strike's kind. -/
theorem c2_strike_machine (row : OverdueRow) (st : State) :
    (row.employee_warnings < 2 →
      (strike row.employee_warnings row.employee_violations).warnings
          = row.employee_warnings + 1
      ∧ (strike row.employee_warnings row.employee_violations).violations
          = row.employee_violations
      ∧ (strike row.employee_warnings row.employee_violations).incidentType
          = IncidentType.warning)
    ∧ (row.employee_warnings = 2 →
      (strike row.employee_warnings row.employee_violations).warnings = 0
      ∧ (strike row.employee_warnings row.employee_violations).violations
          = row.employee_violations + 1
      ∧ (strike row.employee_warnings row.employee_violations).incidentType
          = IncidentType.violation)
    ∧ (row.employee_warnings ≤ 2 →
      (strike row.employee_warnings row.employee_violations).warnings ≤ 2)
    ∧ (handleTimeout row st).incidents = st.incidents ++
        [{ employee_id := row.assignedTo
           type := (strike row.employee_warnings row.employee_violations).incidentType
           reason := timeoutReason
           task_id := some row.taskId }] := by
  refine ⟨?_, ?_, ?_, rfl⟩
  · intro h
    have h3 : ¬ WARNINGS_PER_VIOLATION ≤ row.employee_warnings + 1 := by
      simp only [WARNINGS_PER_VIOLATION]
      omega
    simp [strike, h3]
  · intro h
    have h3 : WARNINGS_PER_VIOLATION ≤ row.employee_warnings + 1 := by
      simp only [WARNINGS_PER_VIOLATION]
      omega
    simp [strike, h3]
  · intro h
    by_cases h3 : WARNINGS_PER_VIOLATION ≤ row.employee_warnings + 1
    · simp [strike, h3]
    · simp only [WARNINGS_PER_VIOLATION] at h3
      simp [strike, WARNINGS_PER_VIOLATION, h3]
      omega

/-- C2 witness: a strike at `(1, 5)` yields a warning, a strike at
`(2, 0)` yields a violation with warnings reset. -/
theorem c2_strike_machine_witness :
    ((strike 1 5).warnings = 2 ∧ (strike 1 5).violations = 5
      ∧ (strike 1 5).incidentType = IncidentType.warning)
    ∧ ((strike 2 0).warnings = 0 ∧ (strike 2 0).violations = 1
      ∧ (strike 2 0).incidentType = IncidentType.violation) :=
  ⟨(c2_strike_machine ⟨0, 0, 1, 5⟩ emptyState).1 (by decide),
   (c2_strike_machine ⟨0, 0, 2, 0⟩ emptyState).2.1 rfl⟩

/-! ### Claim C3 -/

/-- C3: the expiry operation updates the task row in place.  The task
list keeps its length (no cloned insert), every row keeps its id, the
expired row becomes `queued` with the assignment columns cleared and
`retry_count` incremented by exactly one, and every other row is
untouched. -/
theorem c3_expire_in_place (row : OverdueRow) (st : State) :
    (handleTimeout row st).tasks.length = st.tasks.length
    ∧ (handleTimeout row st).tasks = st.tasks.map (expireRow row.taskId)
    ∧ ∀ tk ∈ st.tasks,
        (expireRow row.taskId tk).id = tk.id
        ∧ (tk.id = row.taskId →
            (expireRow row.taskId tk).status = TaskStatus.queued
            ∧ (expireRow row.taskId tk).assigned_to = none
            ∧ (expireRow row.taskId tk).assigned_at = none
            ∧ (expireRow row.taskId tk).due_at = none
            ∧ (expireRow row.taskId tk).started_at = none
            ∧ (expireRow row.taskId tk).retry_count = tk.retry_count + 1)
        ∧ (tk.id ≠ row.taskId → expireRow row.taskId tk = tk) := by
  refine ⟨by simp [handleTimeout], rfl, fun tk _ => ?_⟩
  by_cases h : tk.id = row.taskId
  · simp [expireRow, h]
  · simp [expireRow, h]

/-- C3 witness: expiring the single assigned task of a concrete store
requeues that same row with `retry_count` bumped from 0 to 1. -/
theorem c3_expire_in_place_witness :
    (expireRow 1 (mkTask 1 TaskStatus.assigned)).status = TaskStatus.queued
    ∧ (expireRow 1 (mkTask 1 TaskStatus.assigned)).retry_count
        = (mkTask 1 TaskStatus.assigned).retry_count + 1 := by
  have h := (c3_expire_in_place ⟨1, 1, 0, 0⟩
      { emptyState with tasks := [mkTask 1 TaskStatus.assigned] }).2.2
      (mkTask 1 TaskStatus.assigned) (List.mem_singleton.mpr rfl)
  exact ⟨(h.2.1 rfl).1, (h.2.1 rfl).2.2.2.2.2⟩

/-! ### Claim C5 -/

/-- The eligibility condition as the spec words it: `presence =
available`, no current task, heartbeat newer than `now` minus the
90-second `PRESENCE_TTL`, and `violations < 3`.  The spec also asks
for `active = true`, but the schema has no such column, so that
conjunct has no counterpart.  For comparison with `eligible`. -/
def specEligible (now : Int) (e : Employee) : Bool :=
  decide (e.status = EmpStatus.available) &&
  decide (e.current_task_id = none) &&
  (match e.last_heartbeat with
   | some h => decide (now - 90 < h)
   | none => false) &&
  decide (e.violations < 3)

/-- The employee of the C5 counterexample: three violations and a
heartbeat 200 seconds old. -/
def empC5 : Employee :=
  { mkEmployee 1 with violations := 3, last_heartbeat := some 800 }

/-- Store for the C5 counterexample. -/
def stC5 : State :=
  { emptyState with tasks := [mkTask 1 TaskStatus.queued], employees := [empC5] }

/-- C5, counterexample: an employee with `violations = 3` and a
heartbeat 200 seconds stale fails the claimed conditions
(`violations < 3`, heartbeat within 90 s) yet the assigner considers
it (the code checks `violations < 4` and a 5-minute window, and has no
`active` flag to test) and binds the queued task to it. -/
theorem c5_counterexample :
    eligible 1000 empC5 = true
    ∧ specEligible 1000 empC5 = false
    ∧ (assignNextTask 1000 stC5).tasks =
        [{ mkTask 1 TaskStatus.assigned with
             assigned_to := some 1
             assigned_at := some 1000
             due_at := some 2200 }]
    ∧ (assignNextTask 1000 stC5).employees =
        [{ empC5 with status := EmpStatus.busy, current_task_id := some 1 }] := by
  exact ⟨by decide, by decide, by decide, by decide⟩

/-- C5, amended: a reviewer is considered by the assigner if and only
if `status = available`, `violations < 4`, `current_task_id` is null,
and the last heartbeat is newer than `now` minus 300 seconds (five
minutes); the schema has no `active` flag and none is checked.  Any
task row the tick rewrites is bound to the selected employee, which
satisfies exactly those conditions. -/
theorem c5_eligibility (now : Int) (st : State) (tk : Task)
    (htk : tk ∈ (assignNextTask now st).tasks) (hnew : tk ∉ st.tasks) :
    ∃ emp, selectEmployee now st = some emp
      ∧ emp ∈ st.employees
      ∧ eligible now emp = true
      ∧ tk.assigned_to = some emp.id
      ∧ tk.status = TaskStatus.assigned
      ∧ emp.status = EmpStatus.available
      ∧ emp.violations < 4
      ∧ emp.current_task_id = none
      ∧ ∃ h, emp.last_heartbeat = some h ∧ now - 300 < h := by
  cases hsel : selectQueuedTask st with
  | none =>
    rw [assignNextTask, hsel] at htk
    exact absurd htk hnew
  | some task =>
    cases hemp : selectEmployee now st with
    | none =>
      rw [assignNextTask, hsel, hemp] at htk
      exact absurd htk hnew
    | some emp =>
      rw [assignNextTask, hsel, hemp] at htk
      simp only [List.mem_map] at htk
      obtain ⟨tk0, htk0, hmap⟩ := htk
      by_cases hid : tk0.id = task.id
      · rw [if_pos hid] at hmap
        have hmem : emp ∈ st.employees.filter (eligible now) :=
          pickBy_mem empLt _ emp hemp
        have hmem' := List.mem_filter.mp hmem
        have helig : eligible now emp = true := hmem'.2
        have hcond := helig
        simp only [eligible, Bool.and_eq_true, decide_eq_true_eq] at hcond
        obtain ⟨⟨⟨hav, hviol⟩, hctid⟩, hhb⟩ := hcond
        refine ⟨emp, rfl, hmem'.1, helig, ?_, ?_, hav, hviol, hctid, ?_⟩
        · rw [← hmap]
        · rw [← hmap]
        · cases hlh : emp.last_heartbeat with
          | none => rw [hlh] at hhb; exact absurd hhb (by simp)
          | some h =>
            rw [hlh] at hhb
            exact ⟨h, rfl, by simpa using hhb⟩
      · rw [if_neg hid] at hmap
        rw [← hmap] at hnew
        exact absurd htk0 hnew

/-- Shared concrete store: two queued tasks (created at 5 and 9) and
two eligible employees (0 and 2 completed tasks). -/
def stAssign : State :=
  { emptyState with
      tasks := [{ mkTask 1 TaskStatus.queued with created_at := 5 },
                { mkTask 2 TaskStatus.queued with created_at := 9 }]
      employees := [{ mkEmployee 7 with last_heartbeat := some 900 },
                    { mkEmployee 8 with tasks_completed := 2, last_heartbeat := some 950 }] }

/-- C5 witness: on the concrete store the tick binds the oldest task
to employee 7, and the amended theorem applies to that new row. -/
theorem c5_eligibility_witness :
    (selectEmployee 1000 stAssign).isSome = true := by
  obtain ⟨emp, hsel, -⟩ := c5_eligibility 1000 stAssign
    { mkTask 1 TaskStatus.assigned with
        created_at := 5
        assigned_to := some 7
        assigned_at := some 1000
        due_at := some 2200 }
    (by decide) (by decide)
  rw [hsel]
  rfl

/-! ### Claim C6 -/

/-- Store for the C6 counterexample: two eligible employees with equal
`tasks_completed` and heartbeats at 100 and 200. -/
def stC6 : State :=
  { emptyState with
      employees := [{ mkEmployee 1 with last_heartbeat := some 100 },
                    { mkEmployee 2 with last_heartbeat := some 200 }] }

/-- C6, counterexample: with `tasks_completed` tied, the assigner
picks the employee with the MOST RECENT heartbeat (`ORDER BY
last_heartbeat DESC`), not the oldest one as claimed. -/
theorem c6_counterexample :
    eligible 300 ({ mkEmployee 1 with last_heartbeat := some 100 }) = true
    ∧ eligible 300 ({ mkEmployee 2 with last_heartbeat := some 200 }) = true
    ∧ hbVal ({ mkEmployee 1 with last_heartbeat := some 100 })
        < hbVal ({ mkEmployee 2 with last_heartbeat := some 200 })
    ∧ selectEmployee 300 stC6 = some ({ mkEmployee 2 with last_heartbeat := some 200 })
    ∧ selectEmployee 300 stC6 ≠ some ({ mkEmployee 1 with last_heartbeat := some 100 }) := by
  exact ⟨by decide, by decide, by decide, by decide, by decide⟩

/-- C6, amended: the task chosen is a queued task with minimal
`created_at` (FIFO) and the reviewer chosen is an eligible reviewer
with the fewest `tasks_completed`; ties on `tasks_completed` are
broken by the MOST RECENT `last_heartbeat` (the query orders
`last_heartbeat DESC`), not the oldest. -/
theorem c6_fifo_and_fairness (now : Int) (st : State) (task : Task) (emp : Employee)
    (ht : selectQueuedTask st = some task) (he : selectEmployee now st = some emp) :
    (task ∈ st.tasks ∧ task.status = TaskStatus.queued
      ∧ ∀ t ∈ st.tasks, t.status = TaskStatus.queued → task.created_at ≤ t.created_at)
    ∧ (emp ∈ st.employees ∧ eligible now emp = true
      ∧ ∀ e ∈ st.employees, eligible now e = true →
          emp.tasks_completed ≤ e.tasks_completed
          ∧ (e.tasks_completed = emp.tasks_completed → hbVal e ≤ hbVal emp)) := by
  constructor
  · have hmem := List.mem_filter.mp (pickBy_mem taskLt _ task ht)
    refine ⟨hmem.1, by simpa using hmem.2, fun t htm htq => ?_⟩
    have htf : t ∈ st.tasks.filter fun tk => decide (tk.status = TaskStatus.queued) :=
      List.mem_filter.mpr ⟨htm, by simpa using htq⟩
    have := pickBy_min taskLt taskLt_irr taskLt_trans taskLt_neg _ task ht t htf
    simp only [taskLt, decide_eq_false_iff_not, not_lt] at this
    exact this
  · have hmem := List.mem_filter.mp (pickBy_mem empLt _ emp he)
    refine ⟨hmem.1, hmem.2, fun e hem heq => ?_⟩
    have hef : e ∈ st.employees.filter (eligible now) := List.mem_filter.mpr ⟨hem, heq⟩
    have hmin := pickBy_min empLt empLt_irr empLt_trans empLt_neg _ emp he e hef
    simp only [empLt, Bool.or_eq_false_iff, Bool.and_eq_false_iff,
      decide_eq_false_iff_not, not_lt] at hmin
    obtain ⟨h1, h2⟩ := hmin
    refine ⟨h1, fun heqtc => ?_⟩
    rcases h2 with h2 | h2
    · exact absurd heqtc h2
    · exact h2

/-- C6 witness: on the shared concrete store the oldest task (created
at 5) and the least-loaded employee (7, zero completed) are chosen,
and the minimality facts follow by applying the theorem. -/
theorem c6_fifo_and_fairness_witness :
    eligible 1000 ({ mkEmployee 7 with last_heartbeat := some 900 }) = true
    ∧ (5 : Int) ≤ ({ mkTask 2 TaskStatus.queued with created_at := 9 } : Task).created_at := by
  have h := c6_fifo_and_fairness 1000 stAssign
    ({ mkTask 1 TaskStatus.queued with created_at := 5 })
    ({ mkEmployee 7 with last_heartbeat := some 900 })
    (by decide) (by decide)
  exact ⟨h.2.2.1, h.1.2.2 ({ mkTask 2 TaskStatus.queued with created_at := 9 })
    (by decide) (by decide)⟩

/-! ### Claim C7 -/

/-- Overwrite a task's `retry_count`; the columns the assigner reads
are untouched. -/
def setRetry (r : Nat) (tk : Task) : Task :=
  { tk with retry_count := r }

/-- Store for the C7 counterexample: the only queued task already has
`retry_count = 10`, far beyond the claimed cap of 3. -/
def stC7 : State :=
  { emptyState with
      tasks := [{ mkTask 1 TaskStatus.queued with retry_count := 10 }]
      employees := [{ mkEmployee 7 with last_heartbeat := some 900 }] }

/-- C7, counterexample: the assigner binds a queued task with
`retry_count = 10` to a reviewer instead of marking it `timeout` — no
retry cap exists anywhere in the assigner. -/
theorem c7_counterexample :
    (assignNextTask 1000 stC7).tasks =
      [{ mkTask 1 TaskStatus.assigned with
           retry_count := 10
           assigned_to := some 7
           assigned_at := some 1000
           due_at := some 2200 }]
    ∧ TaskStatus.assigned ≠ TaskStatus.timeout := by
  exact ⟨by decide, by decide⟩

/-- C7, amended: the assigner applies no retry cap.  It never writes
the `timeout` status (any `timeout` row in its output was already in
the store), and its task selection is blind to `retry_count`:
rewriting every retry counter leaves the selected task unchanged up to
that same rewrite. -/
theorem c7_no_retry_cap (now : Int) (st : State) (r : Nat) :
    (∀ tk ∈ (assignNextTask now st).tasks, tk.status = TaskStatus.timeout → tk ∈ st.tasks)
    ∧ selectQueuedTask { st with tasks := st.tasks.map (setRetry r) }
        = (selectQueuedTask st).map (setRetry r) := by
  constructor
  · intro tk htk hto
    cases hsel : selectQueuedTask st with
    | none =>
      rw [assignNextTask, hsel] at htk
      exact htk
    | some task =>
      cases hemp : selectEmployee now st with
      | none =>
        rw [assignNextTask, hsel, hemp] at htk
        exact htk
      | some emp =>
        rw [assignNextTask, hsel, hemp] at htk
        simp only [List.mem_map] at htk
        obtain ⟨tk0, htk0, hmap⟩ := htk
        by_cases hid : tk0.id = task.id
        · rw [if_pos hid] at hmap
          rw [← hmap] at hto
          exact absurd hto (by simp)
        · rw [if_neg hid] at hmap
          rw [← hmap]
          exact htk0
  · show pickBy taskLt _ = _
    have hfilter : (st.tasks.map (setRetry r)).filter
        (fun tk => decide (tk.status = TaskStatus.queued)) =
        (st.tasks.filter fun tk => decide (tk.status = TaskStatus.queued)).map (setRetry r) := by
      rw [List.filter_map]
      rfl
    rw [selectQueuedTask, hfilter]
    generalize st.tasks.filter (fun tk => decide (tk.status = TaskStatus.queued)) = l
    cases l with
    | nil => rfl
    | cons x xs =>
      simp only [List.map_cons, pickBy, Option.map_some]
      congr 1
      induction xs generalizing x with
      | nil => rfl
      | cons y ys ih =>
        simp only [List.map_cons, List.foldl_cons]
        have hlt : taskLt (setRetry r y) (setRetry r x) = taskLt y x := rfl
        rw [hlt]
        by_cases hxy : taskLt y x
        · rw [if_pos hxy, if_pos hxy]
          exact ih y
        · rw [if_neg hxy, if_neg hxy]
          exact ih x

/-- C7 witness: a pre-existing `timeout` row survives a tick on a
store with no queued work, and the retry-blindness applies at a
concrete store whose only queued task carries `retry_count = 10`. -/
theorem c7_no_retry_cap_witness :
    mkTask 3 TaskStatus.timeout ∈
      ({ emptyState with tasks := [mkTask 3 TaskStatus.timeout] } : State).tasks
    ∧ selectQueuedTask { stC7 with tasks := stC7.tasks.map (setRetry 10) }
        = (selectQueuedTask stC7).map (setRetry 10) :=
  ⟨(c7_no_retry_cap 0 { emptyState with tasks := [mkTask 3 TaskStatus.timeout] } 0).1
      (mkTask 3 TaskStatus.timeout) (by decide) rfl,
   (c7_no_retry_cap 0 stC7 10).2⟩

/-! ### Claim C8 -/

/-- Store for the C8 counterexample: employee 1 is busy holding task 7
and employee 2 is locked (`status = offline`, four violations). -/
def stC8 : State :=
  { emptyState with
      employees := [{ mkEmployee 1 with status := EmpStatus.busy, current_task_id := some 7 },
                    { mkEmployee 2 with status := EmpStatus.offline, violations := 4 }] }

/-- C8, counterexample: a presence update to `available` goes through
while the employee still holds a task, and a presence update for a
locked employee (four violations, `status = offline` — the schema has
no `active` flag) also goes through; nothing is ever rejected. -/
theorem c8_counterexample :
    (updatePresence 500 1 EmpStatus.available stC8).employees =
      [{ mkEmployee 1 with
           status := EmpStatus.available
           current_task_id := some 7
           last_heartbeat := some 500 },
       { mkEmployee 2 with status := EmpStatus.offline, violations := 4 }]
    ∧ (updatePresence 500 2 EmpStatus.available stC8).employees =
      [{ mkEmployee 1 with status := EmpStatus.busy, current_task_id := some 7 },
       { mkEmployee 2 with
           status := EmpStatus.available
           violations := 4
           last_heartbeat := some 500 }] := by
  exact ⟨by decide, by decide⟩

/-- C8, amended: `updatePresence` is unconditional.  Whatever the
target employee's state — holding a task, offline, any number of
violations — the requested status is written and the heartbeat
refreshed, every other column and every other row is untouched, and
the tasks are untouched; no request is rejected. -/
theorem c8_presence_unconditional (now : Int) (uid : Nat) (s : EmpStatus) (st : State)
    (e : Employee) (he : e ∈ st.employees) :
    (updatePresence now uid s st).tasks = st.tasks
    ∧ ∃ e', e' ∈ (updatePresence now uid s st).employees
        ∧ (e.id = uid → e'.id = e.id ∧ e'.status = s ∧ e'.last_heartbeat = some now
            ∧ e'.current_task_id = e.current_task_id ∧ e'.warnings = e.warnings
            ∧ e'.violations = e.violations ∧ e'.tasks_completed = e.tasks_completed)
        ∧ (e.id ≠ uid → e' = e) := by
  refine ⟨rfl, (if e.id = uid then { e with status := s, last_heartbeat := some now } else e),
    ?_, ?_, ?_⟩
  · exact List.mem_map_of_mem _ he
  · intro h
    simp [h]
  · intro h
    simp [h]

/-- C8 witness: the amended theorem applied to the busy task-holding
employee of the concrete store. -/
theorem c8_presence_unconditional_witness :
    (updatePresence 500 1 EmpStatus.available stC8).tasks = stC8.tasks :=
  (c8_presence_unconditional 500 1 EmpStatus.available stC8
    ({ mkEmployee 1 with status := EmpStatus.busy, current_task_id := some 7 })
    (by decide)).1

/-! ### Claim C10 -/

/-- C10: the admin resets.  `reset-violations` zeroes `violations` and
writes `status = available` unconditionally — whatever the employee's
status or `current_task_id` — while leaving `warnings`,
`current_task_id` and everything else untouched; `reset-warnings`
zeroes `warnings` and touches neither `violations` nor the status.
Both leave the tasks and all other employees unchanged. -/
theorem c10_admin_resets (id : Nat) (st : State) (e : Employee) (he : e ∈ st.employees)
    (hex : (st.employees.any fun x => decide (x.id = id)) = true) :
    ((resetViolations id st).1.tasks = st.tasks
      ∧ ∃ e', e' ∈ (resetViolations id st).1.employees
          ∧ (e.id = id → e'.id = e.id ∧ e'.violations = 0 ∧ e'.status = EmpStatus.available
              ∧ e'.warnings = e.warnings ∧ e'.current_task_id = e.current_task_id
              ∧ e'.tasks_completed = e.tasks_completed
              ∧ e'.last_heartbeat = e.last_heartbeat)
          ∧ (e.id ≠ id → e' = e))
    ∧ ((resetWarnings id st).1.tasks = st.tasks
      ∧ ∃ e', e' ∈ (resetWarnings id st).1.employees
          ∧ (e.id = id → e'.id = e.id ∧ e'.warnings = 0 ∧ e'.violations = e.violations
              ∧ e'.status = e.status ∧ e'.current_task_id = e.current_task_id)
          ∧ (e.id ≠ id → e' = e)) := by
  constructor
  · rw [resetViolations, if_pos hex]
    refine ⟨rfl,
      (if e.id = id then { e with violations := 0, status := EmpStatus.available } else e),
      List.mem_map_of_mem _ he, ?_, ?_⟩
    · intro h
      simp [h]
    · intro h
      simp [h]
  · rw [resetWarnings, if_pos hex]
    refine ⟨rfl, (if e.id = id then { e with warnings := 0 } else e),
      List.mem_map_of_mem _ he, ?_, ?_⟩
    · intro h
      simp [h]
    · intro h
      simp [h]

/-- C10 witness: the resets applied to a concrete offline employee who
still holds a task and has both counters non-zero. -/
theorem c10_admin_resets_witness :
    (resetViolations 1 { emptyState with
        employees := [{ mkEmployee 1 with
                          status := EmpStatus.offline
                          current_task_id := some 9
                          warnings := 1
                          violations := 4 }] }).1.tasks = [] :=
  (c10_admin_resets 1
    { emptyState with
        employees := [{ mkEmployee 1 with
                          status := EmpStatus.offline
                          current_task_id := some 9
                          warnings := 1
                          violations := 4 }] }
    ({ mkEmployee 1 with
         status := EmpStatus.offline
         current_task_id := some 9
         warnings := 1
         violations := 4 })
    (by decide) (by decide)).1.1

/-! ### Claim C9 -/

/-- The in-progress task of the C9 counterexample. -/
def tkC9 : Task :=
  { mkTask 1 TaskStatus.inProgress with
      candidate_id := 3
      job_id := 4
      assigned_to := some 7
      assigned_at := some 100 }

/-- Store for the C9 counterexample. -/
def stC9 : State :=
  { emptyState with
      tasks := [tkC9]
      employees := [{ mkEmployee 7 with status := EmpStatus.busy, current_task_id := some 1 }]
      candidates := [{ id := 3, resume_url := some "u1" }]
      jobs := [4] }

/-- C9, counterexample: the complete route is NOT atomic.  A failure
at the second statement (the candidate resume update) leaves the store
in a third state: the task is already marked completed, but the
reviewer's counters, the candidate's resume and the applications are
all unchanged — neither the initial state nor the all-effects state. -/
theorem c9_counterexample :
    (completeTask 400 7 1 "u2" none (some 1) stC9).2 = false
    ∧ (completeTask 400 7 1 "u2" none (some 1) stC9).1 ≠ stC9
    ∧ (completeTask 400 7 1 "u2" none (some 1) stC9).1
        ≠ (completeTask 400 7 1 "u2" none none stC9).1
    ∧ (completeTask 400 7 1 "u2" none (some 1) stC9).1.tasks =
        [{ tkC9 with
             status := TaskStatus.completed
             completed_at := some 400
             new_resume_url := some "u2"
             notes := none }]
    ∧ (completeTask 400 7 1 "u2" none (some 1) stC9).1.employees = stC9.employees
    ∧ (completeTask 400 7 1 "u2" none (some 1) stC9).1.candidates = stC9.candidates
    ∧ (completeTask 400 7 1 "u2" none (some 1) stC9).1.applications = [] := by
  exact ⟨by decide, by decide, by decide, by decide, by decide, by decide, by decide⟩

lemma upsertApp_mem (task : Task) (tid : Nat) (url : String) (now : Int)
    (apps : List Application) :
    ∃ a ∈ upsertApp task tid url now apps,
      a.candidate_id = task.candidate_id ∧ a.job_id = task.job_id
      ∧ a.resume_used_url = some url ∧ a.status = "submitted"
      ∧ a.submitted_at = some now := by
  rw [upsertApp]
  by_cases h : (apps.any fun a =>
      decide (a.candidate_id = task.candidate_id) && decide (a.job_id = task.job_id)) = true
  · rw [if_pos h]
    obtain ⟨a0, ha0, hp⟩ := List.any_eq_true.mp h
    simp only [Bool.and_eq_true, decide_eq_true_eq] at hp
    refine ⟨{ a0 with
        resume_used_url := some url
        status := "submitted"
        submitted_at := some now }, ?_, hp.1, hp.2, rfl, rfl, rfl⟩
    exact List.mem_map.mpr ⟨a0, ha0, by simp [hp.1, hp.2]⟩
  · rw [if_neg h]
    exact ⟨_, List.mem_append_right _ (List.mem_singleton.mpr rfl), rfl, rfl, rfl, rfl, rfl⟩

/-- C9, amended: the route runs four separate statements with no
transaction.  When all succeed, every effect is applied: the task is
completed with `completed_at` and the new resume url, the owner is
freed and its counters bumped, the candidate's resume is replaced, and
— when the job row exists — the application is upserted, so a row for
`(candidate, job)` with the new resume, status `submitted` and the
submission time is present.  But a failure after the first statement
leaves that statement committed: the task is completed while the
employees, candidates and applications are exactly as before — the
store is not left unchanged on error. -/
theorem c9_complete_not_atomic (now : Int) (uid tid : Nat) (url : String)
    (notes : Option String) (st : State) (task : Task)
    (hfind : findCompletable uid tid st = some task) :
    ((completeTask now uid tid url notes none st).2 = true
      ∧ (∀ tk ∈ st.tasks, tk.id = tid →
          { tk with
              status := TaskStatus.completed
              completed_at := some now
              new_resume_url := some url
              notes := notes } ∈ (completeTask now uid tid url notes none st).1.tasks)
      ∧ (∀ e ∈ st.employees, e.id = uid →
          ∃ e', e' ∈ (completeTask now uid tid url notes none st).1.employees
            ∧ e'.id = e.id ∧ e'.status = EmpStatus.available ∧ e'.current_task_id = none
            ∧ e'.tasks_completed = e.tasks_completed + 1)
      ∧ (∀ c ∈ st.candidates, c.id = task.candidate_id →
          { c with resume_url := some url } ∈ (completeTask now uid tid url notes none st).1.candidates)
      ∧ (completeTask now uid tid url notes none st).1.applications =
          (if task.job_id ∈ st.jobs then upsertApp task tid url now st.applications
           else st.applications)
      ∧ (task.job_id ∈ st.jobs →
          ∃ a ∈ (completeTask now uid tid url notes none st).1.applications,
            a.candidate_id = task.candidate_id ∧ a.job_id = task.job_id
            ∧ a.resume_used_url = some url ∧ a.status = "submitted"
            ∧ a.submitted_at = some now))
    ∧ ((completeTask now uid tid url notes (some 1) st).2 = false
      ∧ (completeTask now uid tid url notes (some 1) st).1.employees = st.employees
      ∧ (completeTask now uid tid url notes (some 1) st).1.candidates = st.candidates
      ∧ (completeTask now uid tid url notes (some 1) st).1.applications = st.applications
      ∧ (∀ tk ∈ st.tasks, tk.id = tid →
          { tk with
              status := TaskStatus.completed
              completed_at := some now
              new_resume_url := some url
              notes := notes } ∈ (completeTask now uid tid url notes (some 1) st).1.tasks)) := by
  have hsucc : completeTask now uid tid url notes none st =
      (completeStepApplication task tid url now
        (completeStepEmployee now uid task
          (completeStepCandidate task url
            (completeStepTask now tid url notes st))), true) := by
    simp [completeTask, hfind, applySteps]
  have hfail : completeTask now uid tid url notes (some 1) st =
      (completeStepTask now tid url notes st, false) := by
    simp [completeTask, hfind, applySteps]
  have happtasks : ∀ s, (completeStepApplication task tid url now s).tasks = s.tasks := by
    intro s
    by_cases h : task.job_id ∈ s.jobs <;> simp [completeStepApplication, h]
  have happemps : ∀ s, (completeStepApplication task tid url now s).employees = s.employees := by
    intro s
    by_cases h : task.job_id ∈ s.jobs <;> simp [completeStepApplication, h]
  have happcands : ∀ s,
      (completeStepApplication task tid url now s).candidates = s.candidates := by
    intro s
    by_cases h : task.job_id ∈ s.jobs <;> simp [completeStepApplication, h]
  constructor
  · refine ⟨by rw [hsucc], ?_, ?_, ?_, ?_, ?_⟩
    · intro tk htk hid
      rw [hsucc]
      simp only [happtasks, completeStepEmployee, completeStepCandidate, completeStepTask]
      exact List.mem_map.mpr ⟨tk, htk, by simp [hid]⟩
    · intro e hem hid
      rw [hsucc]
      refine ⟨(if e.id = uid then
        { e with
            status := EmpStatus.available
            current_task_id := none
            tasks_completed := e.tasks_completed + 1
            average_completion_time_seconds :=
              if e.tasks_completed = 0 then completionSeconds now task
              else (e.average_completion_time_seconds * (e.tasks_completed : Int) +
                  completionSeconds now task) / ((e.tasks_completed : Int) + 1) }
        else e), ?_, ?_⟩
      · simp only [happemps, completeStepEmployee, completeStepCandidate, completeStepTask]
        exact List.mem_map_of_mem _ hem
      · simp [hid]
    · intro c hc hid
      rw [hsucc]
      simp only [happcands, completeStepEmployee, completeStepCandidate, completeStepTask]
      exact List.mem_map.mpr ⟨c, hc, by simp [hid]⟩
    · rw [hsucc]
      by_cases hj : task.job_id ∈ st.jobs <;>
        simp [completeStepApplication, completeStepEmployee, completeStepCandidate,
          completeStepTask, hj]
    · intro hj
      have happs : (completeTask now uid tid url notes none st).1.applications
          = upsertApp task tid url now st.applications := by
        rw [hsucc]
        simp [completeStepApplication, completeStepEmployee, completeStepCandidate,
          completeStepTask, hj]
      rw [happs]
      exact upsertApp_mem task tid url now st.applications
  · refine ⟨by rw [hfail], by rw [hfail]; rfl, by rw [hfail]; rfl, by rw [hfail]; rfl, ?_⟩
    intro tk htk hid
    rw [hfail]
    simp only [completeStepTask]
    exact List.mem_map.mpr ⟨tk, htk, by simp [hid]⟩

/-- C9 witness: the amended theorem applied to the concrete store of
the counterexample; the all-success run reports success and, since job
4 exists there, its applications are exactly the upsert of the initial
(empty) application list. -/
theorem c9_complete_not_atomic_witness :
    (completeTask 400 7 1 "u2" none none stC9).2 = true
    ∧ (completeTask 400 7 1 "u2" none none stC9).1.applications
        = upsertApp tkC9 1 "u2" 400 stC9.applications := by
  have h := c9_complete_not_atomic 400 7 1 "u2" none stC9 tkC9 (by decide)
  refine ⟨h.1.1, ?_⟩
  rw [h.1.2.2.2.2.1, if_pos (by decide : tkC9.job_id ∈ stC9.jobs)]

/-! ### Score preservation under every modelled operation -/

lemma scoresBelow_of_subscores {st st' : State} (h : scoresBelow st)
    (hsub : ∀ tk ∈ st'.tasks, ∃ tk0 ∈ st.tasks, tk.ats_score = tk0.ats_score) :
    scoresBelow st' := by
  intro tk htk
  obtain ⟨tk0, h0, he⟩ := hsub tk htk
  rw [he]
  exact h tk0 h0

lemma handleTimeout_scores (row : OverdueRow) {st : State} (h : scoresBelow st) :
    scoresBelow (handleTimeout row st) := by
  refine scoresBelow_of_subscores h fun tk htk => ?_
  simp only [handleTimeout, List.mem_map] at htk
  obtain ⟨tk0, h0, rfl⟩ := htk
  refine ⟨tk0, h0, ?_⟩
  unfold expireRow
  by_cases hid : tk0.id = row.taskId <;> simp [hid]

lemma checkTimeouts_scores (now : Int) {st : State} (h : scoresBelow st) :
    scoresBelow (checkTimeouts now st) := by
  rw [checkTimeouts]
  generalize overdueRows now st = rows
  induction rows generalizing st with
  | nil => exact h
  | cons r rs ih => exact ih (handleTimeout_scores r h)

lemma assignNextTask_scores (now : Int) {st : State} (h : scoresBelow st) :
    scoresBelow (assignNextTask now st) := by
  rw [assignNextTask]
  cases selectQueuedTask st with
  | none => exact h
  | some task =>
    cases selectEmployee now st with
    | none => exact h
    | some emp =>
      refine scoresBelow_of_subscores h fun tk htk => ?_
      simp only [List.mem_map] at htk
      obtain ⟨tk0, h0, rfl⟩ := htk
      refine ⟨tk0, h0, ?_⟩
      by_cases hid : tk0.id = task.id <;> simp [hid]

lemma startTask_scores (now : Int) (uid tid : Nat) {st : State} (h : scoresBelow st) :
    scoresBelow (startTask now uid tid st).1 := by
  rw [startTask]
  split
  · refine scoresBelow_of_subscores h fun tk htk => ?_
    simp only [List.mem_map] at htk
    obtain ⟨tk0, h0, rfl⟩ := htk
    refine ⟨tk0, h0, ?_⟩
    by_cases hid : tk0.id = tid <;> simp [hid]
  · exact h

lemma failTask_scores (uid tid : Nat) (reason : String) {st : State} (h : scoresBelow st) :
    scoresBelow (failTask uid tid reason st).1 := by
  rw [failTask]
  split
  · refine scoresBelow_of_subscores h fun tk htk => ?_
    simp only [List.mem_map] at htk
    obtain ⟨tk0, h0, rfl⟩ := htk
    refine ⟨tk0, h0, ?_⟩
    by_cases hid : tk0.id = tid <;> simp [hid]
  · exact h

lemma applySteps_scores (fs : List (State → State))
    (hfs : ∀ f ∈ fs, ∀ s, scoresBelow s → scoresBelow (f s)) :
    ∀ (failAt : Option Nat) (s : State), scoresBelow s → scoresBelow (applySteps fs failAt s).1 := by
  induction fs with
  | nil =>
    intro failAt s h
    cases failAt <;> exact h
  | cons f fs ih =>
    intro failAt s h
    have hf := hfs f (List.mem_cons_self f fs)
    have hfs' : ∀ g ∈ fs, ∀ s, scoresBelow s → scoresBelow (g s) :=
      fun g hg => hfs g (List.mem_cons_of_mem f hg)
    cases failAt with
    | none => exact ih hfs' none (f s) (hf s h)
    | some k =>
      cases k with
      | zero => exact h
      | succ k => exact ih hfs' (some k) (f s) (hf s h)

lemma completeTask_scores (now : Int) (uid tid : Nat) (url : String) (notes : Option String)
    (failAt : Option Nat) {st : State} (h : scoresBelow st) :
    scoresBelow (completeTask now uid tid url notes failAt st).1 := by
  rw [completeTask]
  cases findCompletable uid tid st with
  | none => exact h
  | some task =>
    refine applySteps_scores _ ?_ failAt st h
    intro f hf s hs
    simp only [List.mem_cons, List.not_mem_nil, or_false] at hf
    rcases hf with rfl | rfl | rfl | rfl
    · refine scoresBelow_of_subscores hs fun tk htk => ?_
      simp only [completeStepTask, List.mem_map] at htk
      obtain ⟨tk0, h0, rfl⟩ := htk
      refine ⟨tk0, h0, ?_⟩
      by_cases hid : tk0.id = tid <;> simp [hid]
    · exact hs
    · exact hs
    · refine scoresBelow_of_subscores hs fun tk htk => ?_
      refine ⟨tk, ?_, rfl⟩
      rw [completeStepApplication] at htk
      revert htk
      by_cases hj : task.job_id ∈ s.jobs <;> simp [hj]

lemma updatePresence_scores (now : Int) (uid : Nat) (s : EmpStatus) {st : State}
    (h : scoresBelow st) : scoresBelow (updatePresence now uid s st) := h

lemma resetWarnings_scores (id : Nat) {st : State} (h : scoresBelow st) :
    scoresBelow (resetWarnings id st).1 := by
  rw [resetWarnings]
  split <;> exact h

lemma resetViolations_scores (id : Nat) {st : State} (h : scoresBelow st) :
    scoresBelow (resetViolations id st).1 := by
  rw [resetViolations]
  split <;> exact h

lemma enqueueTask_scores (candidateId jobId newId : Nat) (atsScore : ℚ) (now : Int)
    {st st' : State} (henq : enqueueTask candidateId jobId atsScore newId now st = Except.ok st')
    (h : scoresBelow st) : scoresBelow st' := by
  rw [enqueueTask] at henq
  by_cases hth : SCORE_THRESHOLD ≤ atsScore
  · rw [if_pos hth] at henq
    exact absurd henq (by simp)
  · rw [if_neg hth] at henq
    have hst : st' = queueTask candidateId jobId atsScore newId now st := by
      cases henq
      rfl
    subst hst
    intro tk htk
    simp only [queueTask, List.mem_append, List.mem_singleton] at htk
    rcases htk with htk | rfl
    · exact h tk htk
    · simpa using lt_of_not_le hth

lemma step_scores {s s' : State} (hstep : Step s s') (h : scoresBelow s) : scoresBelow s' := by
  cases hstep with
  | enqueue candidateId jobId newId atsScore now st st' henq =>
    exact enqueueTask_scores candidateId jobId newId atsScore now henq h
  | assign now st => exact assignNextTask_scores now h
  | sweep now st => exact checkTimeouts_scores now h
  | start now uid tid st => exact startTask_scores now uid tid h
  | complete now uid tid url notes failAt st =>
    exact completeTask_scores now uid tid url notes failAt h
  | fail uid tid reason st => exact failTask_scores uid tid reason h
  | presence now uid s st => exact updatePresence_scores now uid s h
  | resetW id st => exact resetWarnings_scores id h
  | resetV id st => exact resetViolations_scores id h

/-! ### Claim C4 -/

/-- C4: the threshold split.  An enqueue with `ats_score ≥ 0.90` fails
with `ScoreAboveThreshold` and inserts nothing; an enqueue with a
lower score succeeds and appends exactly one `queued` task carrying
that score; and along any sequence of modelled operations a store
whose tasks all score below 0.90 keeps that property — so no task at
or above the threshold ever exists in the store. -/
theorem c4_threshold_split (candidateId jobId newId : Nat) (atsScore : ℚ) (now : Int)
    (st st0 st1 : State) :
    (SCORE_THRESHOLD ≤ atsScore →
      enqueueTask candidateId jobId atsScore newId now st
        = Except.error EnqueueError.ScoreAboveThreshold)
    ∧ (atsScore < SCORE_THRESHOLD →
      ∃ tk, enqueueTask candidateId jobId atsScore newId now st
          = Except.ok { st with tasks := st.tasks ++ [tk] }
        ∧ tk.status = TaskStatus.queued ∧ tk.ats_score = atsScore ∧ tk.id = newId)
    ∧ (scoresBelow st0 → Reachable st0 st1 → scoresBelow st1) := by
  refine ⟨fun hth => ?_, fun hlt => ?_, fun h0 hr => ?_⟩
  · rw [enqueueTask, if_pos hth]
  · rw [enqueueTask, if_neg (not_le.mpr hlt)]
    exact ⟨_, rfl, rfl, rfl, rfl⟩
  · induction hr with
    | refl => exact h0
    | tail _ hstep ih => exact step_scores hstep ih

/-- C4 witness: a 0.95 enqueue is rejected on the empty store, a 0.5
enqueue is not, and the invariant holds of the store reached from the
empty store by one assigner tick. -/
theorem c4_threshold_split_witness :
    enqueueTask 0 0 ((19 : ℚ) / 20) 1 0 emptyState
      = Except.error EnqueueError.ScoreAboveThreshold
    ∧ enqueueTask 0 0 ((1 : ℚ) / 2) 1 0 emptyState
      ≠ Except.error EnqueueError.ScoreAboveThreshold
    ∧ scoresBelow (assignNextTask 0 emptyState) := by
  refine ⟨?_, ?_, ?_⟩
  · exact (c4_threshold_split 0 0 1 ((19 : ℚ) / 20) 0 emptyState emptyState emptyState).1
      (by norm_num [SCORE_THRESHOLD])
  · obtain ⟨tk, heq, -, -, -⟩ :=
      (c4_threshold_split 0 0 1 ((1 : ℚ) / 2) 0 emptyState emptyState emptyState).2.1
        (by norm_num [SCORE_THRESHOLD])
    rw [heq]
    simp
  · exact (c4_threshold_split 0 0 1 0 0 emptyState emptyState
      (assignNextTask 0 emptyState)).2.2 (by intro tk htk; exact absurd htk (by simp [emptyState]))
      (Relation.ReflTransGen.single (Step.assign 0 emptyState))

end Spark
